import Mathlib

/-!
Shallow embedding of the `cosmwasm-distribute` contract
(`src/contract.rs`, `src/msg.rs`, `src/error.rs`) and proofs of the
specification claims about its two distribution paths.

Modelling choices:
* `Uint128` amounts are `Nat`; the `Add` of `cosmwasm_std::Uint128`
  checks for overflow and aborts the whole call (panic) instead of
  wrapping, so the fold over recipient amounts is embedded with a
  checked addition returning `Option Nat`, and an overflow of the
  accumulator yields the distinguished outcome `DistResult.panicked`.
* `deps.api.addr_validate` is an external collaborator; it is passed in
  as a function `validate : String → Except String Unit` whose error is
  the `StdError` the host would return, converted to
  `ContractError.std` by the `?` operator of the source.
* `Response::new().add_submessages(v)` is embedded as the list of
  submessages `v`; `DistResult.ok msgs` carries exactly those.
-/

namespace Distribute

/-- `Recipient` from `src/msg.rs`: address and amount.
Equality is structural (derived `PartialEq` on both fields). -/
structure Recipient where
  recipient : String
  amount : Nat
  deriving DecidableEq, Repr

/-- A native coin as in `cosmwasm_std::Coin`: denom and amount. -/
structure Coin where
  denom : String
  amount : Nat
  deriving DecidableEq, Repr

/-- `ContractError` from `src/error.rs`. `std` holds the message of a
propagated `StdError` (e.g. from `addr_validate`). -/
inductive ContractError where
  | std (e : String)
  | generic (s : String)
  | mismatchedAssetType
  | mismatchedAssetAmount
  | duplicateRecipient
  deriving DecidableEq, Repr

/-- A submessage of the returned `Response`: either a
`BankMsg::Send` (native path, one coin of the declared denom) or a
`WasmMsg::Execute` of `Cw20ExecuteMsg::Transfer` (cw20 path). -/
inductive SubMsg where
  | bankSend (to_address : String) (amount : Nat) (denom : String)
  | cw20Transfer (contract_addr : String) (recipient : String) (amount : Nat)
  deriving DecidableEq, Repr

/-- Outcome of a contract call.  `ok` is a returned `Response` carrying
its submessages, `err` a returned `ContractError`, `panicked` an abort
of the whole call by an arithmetic-overflow panic inside the VM. -/
inductive DistResult where
  | ok (msgs : List SubMsg)
  | err (e : ContractError)
  | panicked
  deriving DecidableEq, Repr

/-- The number 2^128: one past the largest `Uint128` value. -/
def uint128Bound : Nat := 2 ^ 128

/-- `cosmwasm_std::Uint128` addition: checked, aborting (rather than
wrapping) on overflow. -/
def checkedAdd (a b : Nat) : Option Nat :=
  if a + b < uint128Bound then some (a + b) else none

/-- The fold
`recipients.iter().fold(Uint128::zero(), |sum, r| sum + r.amount)`
of `try_distribute_cw20` / `try_distribute_native`; `none` is the
overflow panic of `Uint128` addition. -/
def sumAmounts (recipients : List Recipient) : Option Nat :=
  recipients.foldl (fun acc r => acc.bind fun s => checkedAdd s r.amount)
    (some 0)

/-- The duplicate-recipient check
`(1..recipients.len()).any(|i| recipients[i..].contains(&recipients[i - 1]))`
shared by both paths: full structural equality on `Recipient`. -/
def hasDuplicate (recipients : List Recipient) : Bool :=
  (List.range' 1 (recipients.length - 1)).any fun i =>
    match recipients.get? (i - 1) with
    | some r => (recipients.drop i).contains r
    | none => false

/-- The funds scan of `try_distribute_native`: starting from
`amount = Uint128::zero()`, each coin whose denom differs from the
declared one returns `Err(MismatchedAssetType)` (here `none`), each
matching coin overwrites `amount` with its own. -/
def scanFunds (denom : String) : List Coin → Nat → Option Nat
  | [], amount => some amount
  | coin :: rest, _amount =>
      if coin.denom ≠ denom then none
      else scanFunds denom rest coin.amount

/-- The message-building loop shared by both paths: for each recipient,
call `deps.api.addr_validate` and propagate its failure (dropping the
partially built vector), else push `mk recipient` onto the vector. -/
def buildMsgs (validate : String → Except String Unit)
    (mk : Recipient → SubMsg) : List Recipient → Except String (List SubMsg)
  | [] => Except.ok []
  | r :: rest =>
      match validate r.recipient with
      | Except.error e => Except.error e
      | Except.ok _ =>
          match buildMsgs validate mk rest with
          | Except.error e => Except.error e
          | Except.ok msgs => Except.ok (mk r :: msgs)

/-- The sequence of addresses passed to `deps.api.addr_validate` by the
building loop, in call order (the loop stops at the first failure). -/
def validationCalls (validate : String → Except String Unit) :
    List Recipient → List String
  | [] => []
  | r :: rest =>
      match validate r.recipient with
      | Except.error _ => [r.recipient]
      | Except.ok _ => r.recipient :: validationCalls validate rest

/-- `try_distribute_cw20` from `src/contract.rs`: sum check, duplicate
check, then the build loop emitting one
`WasmMsg::Execute(Cw20ExecuteMsg::Transfer)` per recipient, target
contract `asset_token`. -/
def try_distribute_cw20 (validate : String → Except String Unit)
    (amount : Nat) (asset_token : String) (recipients : List Recipient) :
    DistResult :=
  match sumAmounts recipients with
  | none => DistResult.panicked
  | some sum_recipient_amount =>
      if amount ≠ sum_recipient_amount then
        DistResult.err ContractError.mismatchedAssetAmount
      else if hasDuplicate recipients then
        DistResult.err ContractError.duplicateRecipient
      else
        match buildMsgs validate
            (fun r => SubMsg.cw20Transfer asset_token r.recipient r.amount)
            recipients with
        | Except.error e => DistResult.err (ContractError.std e)
        | Except.ok msgs => DistResult.ok msgs

/-- `try_distribute_native` from `src/contract.rs`: funds scan, sum
check, duplicate check, then the build loop emitting one
`BankMsg::Send` of `coins(r.amount, denom)` per recipient. -/
def try_distribute_native (validate : String → Except String Unit)
    (funds : List Coin) (denom : String) (recipients : List Recipient) :
    DistResult :=
  match scanFunds denom funds 0 with
  | none => DistResult.err ContractError.mismatchedAssetType
  | some amount =>
      match sumAmounts recipients with
      | none => DistResult.panicked
      | some sum_recipient_amount =>
          if amount ≠ sum_recipient_amount then
            DistResult.err ContractError.mismatchedAssetAmount
          else if hasDuplicate recipients then
            DistResult.err ContractError.duplicateRecipient
          else
            match buildMsgs validate
                (fun r => SubMsg.bankSend r.recipient r.amount denom)
                recipients with
            | Except.error e => DistResult.err (ContractError.std e)
            | Except.ok msgs => DistResult.ok msgs

/-- `Cw20HookMsg` from `src/msg.rs`, plus the undecodable case: the
argument of `receive_cw20` is the raw binary payload, which
`from_binary` either decodes into `DistributeCw20` or rejects. -/
inductive Cw20HookPayload where
  | distributeCw20 (asset_token : String) (recipients : List Recipient)
  | malformed
  deriving DecidableEq, Repr

/-- `Cw20ReceiveMsg`: hook sender and deposited amount together with
the (already decoding-classified) payload. -/
structure Cw20ReceiveMsg where
  sender : String
  amount : Nat
  msg : Cw20HookPayload
  deriving DecidableEq, Repr

/-- `receive_cw20` from `src/contract.rs`: decode the payload, check
`info.sender == asset_token`, then delegate to `try_distribute_cw20`.
`info_sender` is `info.sender.to_string()`. -/
def receive_cw20 (validate : String → Except String Unit)
    (info_sender : String) (cw20_msg : Cw20ReceiveMsg) : DistResult :=
  match cw20_msg.msg with
  | Cw20HookPayload.distributeCw20 asset_token recipients =>
      if info_sender ≠ asset_token then
        DistResult.err ContractError.mismatchedAssetType
      else
        try_distribute_cw20 validate cw20_msg.amount asset_token recipients
  | Cw20HookPayload.malformed =>
      DistResult.err (ContractError.generic "invalid cw20 hook message")

/-- `ExecuteMsg` from `src/msg.rs`. -/
inductive ExecuteMsg where
  | receive (msg : Cw20ReceiveMsg)
  | distributeNative (denom : String) (recipients : List Recipient)
  deriving DecidableEq, Repr

/-- Contract storage as seen by `deps.storage`: an abstract key-value
association. -/
def Store := List (String × String)

/-- `MessageInfo`: sender address and attached funds. -/
structure MessageInfo where
  sender : String
  funds : List Coin

/-- `execute` from `src/contract.rs`, with `deps.storage` threaded
explicitly: neither arm reads or writes storage, so the store is
returned as received. -/
def execute (validate : String → Except String Unit) (store : Store)
    (info : MessageInfo) (msg : ExecuteMsg) : DistResult × Store :=
  match msg with
  | ExecuteMsg.receive m => (receive_cw20 validate info.sender m, store)
  | ExecuteMsg.distributeNative denom recipients =>
      (try_distribute_native validate info.funds denom recipients, store)

/-- The submessages a `DistResult` asks the host to execute: a returned
error or a panic executes nothing. -/
def instructionsOf : DistResult → List SubMsg
  | DistResult.ok msgs => msgs
  | DistResult.err _ => []
  | DistResult.panicked => []

/-- Existence of two structurally identical entries at positions `i < j`. -/
def HasDupPair (rs : List Recipient) : Prop :=
  ∃ i j, ∃ hi : i < rs.length, ∃ hj : j < rs.length,
    i < j ∧ rs.get ⟨i, hi⟩ = rs.get ⟨j, hj⟩

/-- The amount a transfer instruction carries. -/
def subMsgAmount : SubMsg → Nat
  | SubMsg.bankSend _ a _ => a
  | SubMsg.cw20Transfer _ _ a => a

/-- A validator accepting every address. -/
def okValidator : String → Except String Unit := fun _ => Except.ok ()

/-- A validator rejecting exactly the address "B". -/
def rejectB : String → Except String Unit := fun s =>
  if s = "B" then Except.error "invalid address" else Except.ok ()

theorem sumAmounts_go_none (rs : List Recipient) :
    rs.foldl (fun acc r => acc.bind fun s => checkedAdd s r.amount) none = none := by
  induction rs with
  | nil => rfl
  | cons r rest ih => simpa using ih

theorem sumAmounts_go (rs : List Recipient) (s : Nat) (hs : s < uint128Bound) :
    rs.foldl (fun acc r => acc.bind fun t => checkedAdd t r.amount) (some s) =
      if s + (rs.map Recipient.amount).sum < uint128Bound
      then some (s + (rs.map Recipient.amount).sum) else none := by
  induction rs generalizing s with
  | nil => simp [hs]
  | cons r rest ih =>
      simp only [List.foldl_cons, Option.some_bind, List.map_cons, List.sum_cons]
      by_cases h : s + r.amount < uint128Bound
      · have hca : checkedAdd s r.amount = some (s + r.amount) := by
          simp [checkedAdd, h]
        rw [hca, ih (s + r.amount) h]
        have e : s + r.amount + (List.map Recipient.amount rest).sum
            = s + (r.amount + (List.map Recipient.amount rest).sum) := by omega
        rw [e]
      · have hca : checkedAdd s r.amount = none := by
          simp [checkedAdd, h]
        rw [hca, sumAmounts_go_none, if_neg (by omega)]

theorem sumAmounts_eq (rs : List Recipient) :
    sumAmounts rs =
      if (rs.map Recipient.amount).sum < uint128Bound
      then some ((rs.map Recipient.amount).sum) else none := by
  have h := sumAmounts_go rs 0 (by simp [uint128Bound])
  simpa [sumAmounts] using h

theorem scanFunds_eq_none_iff (denom : String) (funds : List Coin) (acc : Nat) :
    scanFunds denom funds acc = none ↔ ∃ c ∈ funds, c.denom ≠ denom := by
  induction funds generalizing acc with
  | nil => simp [scanFunds]
  | cons c rest ih =>
      by_cases h : c.denom = denom
      · simp [scanFunds, h, ih]
      · simp [scanFunds, h]

theorem scanFunds_all_match (denom : String) (funds : List Coin) (acc : Nat)
    (h : ∀ c ∈ funds, c.denom = denom) :
    scanFunds denom funds acc = some ((funds.map Coin.amount).getLastD acc) := by
  induction funds generalizing acc with
  | nil => simp [scanFunds]
  | cons c rest ih =>
      have hc : c.denom = denom := h c (List.mem_cons_self c rest)
      simp only [scanFunds, hc, ne_eq, not_true_eq_false, if_false, List.map_cons,
        List.getLastD_cons]
      exact ih c.amount fun x hx => h x (List.mem_cons_of_mem c hx)

theorem buildMsgs_all_ok (validate : String → Except String Unit)
    (mk : Recipient → SubMsg) (rs : List Recipient)
    (h : ∀ r ∈ rs, validate r.recipient = Except.ok ()) :
    buildMsgs validate mk rs = Except.ok (rs.map mk) := by
  induction rs with
  | nil => rfl
  | cons r rest ih =>
      have hr : validate r.recipient = Except.ok () :=
        h r (List.mem_cons_self r rest)
      have hrest := ih fun x hx => h x (List.mem_cons_of_mem r hx)
      simp [buildMsgs, hr, hrest]

theorem buildMsgs_first_error (validate : String → Except String Unit)
    (mk : Recipient → SubMsg) (rs : List Recipient) (k : Nat) (e : String)
    (hk : k < rs.length)
    (hbefore : ∀ i (hi : i < k),
      validate (rs.get ⟨i, hi.trans hk⟩).recipient = Except.ok ())
    (hfail : validate (rs.get ⟨k, hk⟩).recipient = Except.error e) :
    buildMsgs validate mk rs = Except.error e := by
  induction rs generalizing k with
  | nil => exact absurd hk (Nat.not_lt_zero k)
  | cons r rest ih =>
      cases k with
      | zero =>
          simp only [List.get] at hfail
          simp [buildMsgs, hfail]
      | succ k' =>
          have hr : validate r.recipient = Except.ok () := by
            have := hbefore 0 (Nat.succ_pos k')
            simpa using this
          have hk' : k' < rest.length := Nat.lt_of_succ_lt_succ hk
          have hrest := ih k' hk'
            (fun i hi => by
              have := hbefore (i + 1) (Nat.succ_lt_succ hi)
              simpa using this)
            (by simpa using hfail)
          simp [buildMsgs, hr, hrest]

theorem validationCalls_all_ok (validate : String → Except String Unit)
    (rs : List Recipient)
    (h : ∀ r ∈ rs, validate r.recipient = Except.ok ()) :
    validationCalls validate rs = rs.map Recipient.recipient := by
  induction rs with
  | nil => rfl
  | cons r rest ih =>
      have hr : validate r.recipient = Except.ok () :=
        h r (List.mem_cons_self r rest)
      have hrest := ih fun x hx => h x (List.mem_cons_of_mem r hx)
      simp [validationCalls, hr, hrest]

theorem get_drop_aux (rs : List Recipient) {i k : Nat} (h : i + k < rs.length) :
    rs.get ⟨i + k, h⟩ =
      (rs.drop i).get ⟨k, by rw [List.length_drop]; omega⟩ := by
  simp only [List.get_eq_getElem]
  exact List.getElem_drop' rs h

theorem hasDuplicate_iff (rs : List Recipient) :
    hasDuplicate rs = true ↔ HasDupPair rs := by
  constructor
  · intro h
    rw [hasDuplicate, List.any_eq_true] at h
    obtain ⟨i, hmem, hp⟩ := h
    rw [List.mem_range'_1] at hmem
    have hlen : i - 1 < rs.length := by omega
    rw [List.get?_eq_get hlen] at hp
    dsimp only at hp
    have hp' : rs.get ⟨i - 1, hlen⟩ ∈ rs.drop i := List.elem_iff.mp hp
    obtain ⟨⟨k, hk⟩, hgk⟩ := List.mem_iff_get.mp hp'
    have hik : i + k < rs.length := by
      rw [List.length_drop] at hk; omega
    have h2 := get_drop_aux rs hik
    exact ⟨i - 1, i + k, hlen, hik, by omega, by rw [h2]; exact hgk.symm⟩
  · rintro ⟨i, j, hi, hj, hij, heq⟩
    rw [hasDuplicate, List.any_eq_true]
    refine ⟨i + 1, List.mem_range'_1.mpr (by omega), ?_⟩
    have h0 : i + 1 - 1 = i := by omega
    rw [h0, List.get?_eq_get hi]
    dsimp only
    have hj' : i + 1 + (j - (i + 1)) < rs.length := by omega
    have h2 := get_drop_aux rs hj'
    have h3 : rs.get ⟨i + 1 + (j - (i + 1)), hj'⟩ = rs.get ⟨j, hj⟩ := by
      have hv : i + 1 + (j - (i + 1)) = j := by omega
      congr 1
      exact Fin.ext hv
    have hmem : rs.get ⟨i, hi⟩ ∈ rs.drop (i + 1) := by
      rw [heq, ← h3, h2]
      exact List.get_mem _ _ _
    exact List.elem_iff.mpr hmem

theorem try_distribute_cw20_ok (validate : String → Except String Unit)
    (amount : Nat) (tok : String) (rs : List Recipient)
    (hsum : sumAmounts rs = some amount)
    (hdup : hasDuplicate rs = false)
    (hval : ∀ r ∈ rs, validate r.recipient = Except.ok ()) :
    try_distribute_cw20 validate amount tok rs =
      DistResult.ok
        (rs.map fun r => SubMsg.cw20Transfer tok r.recipient r.amount) := by
  simp [try_distribute_cw20, hsum, hdup, buildMsgs_all_ok validate _ rs hval]

theorem try_distribute_native_ok (validate : String → Except String Unit)
    (funds : List Coin) (denom : String) (rs : List Recipient) (amount : Nat)
    (hscan : scanFunds denom funds 0 = some amount)
    (hsum : sumAmounts rs = some amount)
    (hdup : hasDuplicate rs = false)
    (hval : ∀ r ∈ rs, validate r.recipient = Except.ok ()) :
    try_distribute_native validate funds denom rs =
      DistResult.ok
        (rs.map fun r => SubMsg.bankSend r.recipient r.amount denom) := by
  simp [try_distribute_native, hscan, hsum, hdup,
    buildMsgs_all_ok validate _ rs hval]

theorem try_distribute_cw20_mismatch (validate : String → Except String Unit)
    (amount : Nat) (tok : String) (rs : List Recipient) (s : Nat)
    (hsum : sumAmounts rs = some s) (hne : amount ≠ s) :
    try_distribute_cw20 validate amount tok rs =
      DistResult.err ContractError.mismatchedAssetAmount := by
  simp [try_distribute_cw20, hsum, hne]

theorem try_distribute_native_mismatch (validate : String → Except String Unit)
    (funds : List Coin) (denom : String) (rs : List Recipient)
    (amount s : Nat)
    (hscan : scanFunds denom funds 0 = some amount)
    (hsum : sumAmounts rs = some s) (hne : amount ≠ s) :
    try_distribute_native validate funds denom rs =
      DistResult.err ContractError.mismatchedAssetAmount := by
  simp [try_distribute_native, hscan, hsum, hne]

theorem try_distribute_cw20_dup (validate : String → Except String Unit)
    (amount : Nat) (tok : String) (rs : List Recipient)
    (hsum : sumAmounts rs = some amount)
    (hdup : hasDuplicate rs = true) :
    try_distribute_cw20 validate amount tok rs =
      DistResult.err ContractError.duplicateRecipient := by
  simp [try_distribute_cw20, hsum, hdup]

theorem try_distribute_native_dup (validate : String → Except String Unit)
    (funds : List Coin) (denom : String) (rs : List Recipient) (amount : Nat)
    (hscan : scanFunds denom funds 0 = some amount)
    (hsum : sumAmounts rs = some amount)
    (hdup : hasDuplicate rs = true) :
    try_distribute_native validate funds denom rs =
      DistResult.err ContractError.duplicateRecipient := by
  simp [try_distribute_native, hscan, hsum, hdup]

theorem try_distribute_cw20_build (validate : String → Except String Unit)
    (amount : Nat) (tok : String) (rs : List Recipient)
    (hsum : sumAmounts rs = some amount)
    (hdup : hasDuplicate rs = false) :
    try_distribute_cw20 validate amount tok rs =
      match buildMsgs validate
          (fun r => SubMsg.cw20Transfer tok r.recipient r.amount) rs with
      | Except.error e => DistResult.err (ContractError.std e)
      | Except.ok msgs => DistResult.ok msgs := by
  simp [try_distribute_cw20, hsum, hdup]

theorem try_distribute_native_build (validate : String → Except String Unit)
    (funds : List Coin) (denom : String) (rs : List Recipient) (amount : Nat)
    (hscan : scanFunds denom funds 0 = some amount)
    (hsum : sumAmounts rs = some amount)
    (hdup : hasDuplicate rs = false) :
    try_distribute_native validate funds denom rs =
      match buildMsgs validate
          (fun r => SubMsg.bankSend r.recipient r.amount denom) rs with
      | Except.error e => DistResult.err (ContractError.std e)
      | Except.ok msgs => DistResult.ok msgs := by
  simp [try_distribute_native, hscan, hsum, hdup]

theorem try_distribute_cw20_panic (validate : String → Except String Unit)
    (amount : Nat) (tok : String) (rs : List Recipient)
    (hsum : sumAmounts rs = none) :
    try_distribute_cw20 validate amount tok rs = DistResult.panicked := by
  simp [try_distribute_cw20, hsum]

theorem try_distribute_native_panic (validate : String → Except String Unit)
    (funds : List Coin) (denom : String) (rs : List Recipient) (amount : Nat)
    (hscan : scanFunds denom funds 0 = some amount)
    (hsum : sumAmounts rs = none) :
    try_distribute_native validate funds denom rs = DistResult.panicked := by
  simp [try_distribute_native, hscan, hsum]

theorem try_distribute_native_badfunds (validate : String → Except String Unit)
    (funds : List Coin) (denom : String) (rs : List Recipient)
    (hscan : scanFunds denom funds 0 = none) :
    try_distribute_native validate funds denom rs =
      DistResult.err ContractError.mismatchedAssetType := by
  simp [try_distribute_native, hscan]

theorem sumAmounts_some (rs : List Recipient) (amount : Nat)
    (h : sumAmounts rs = some amount) :
    (rs.map Recipient.amount).sum = amount
    ∧ (rs.map Recipient.amount).sum < uint128Bound := by
  rw [sumAmounts_eq] at h
  by_cases hc : (rs.map Recipient.amount).sum < uint128Bound
  · rw [if_pos hc] at h
    exact ⟨Option.some.inj h, hc⟩
  · rw [if_neg hc] at h
    exact absurd h (by simp)

theorem try_distribute_cw20_not_dup_err (validate : String → Except String Unit)
    (amount : Nat) (tok : String) (rs : List Recipient)
    (hsum : sumAmounts rs = some amount)
    (hdup : hasDuplicate rs = false) :
    try_distribute_cw20 validate amount tok rs ≠
      DistResult.err ContractError.duplicateRecipient := by
  rw [try_distribute_cw20_build validate amount tok rs hsum hdup]
  rcases hb : buildMsgs validate
      (fun r => SubMsg.cw20Transfer tok r.recipient r.amount) rs with e | msgs
  all_goals simp

theorem try_distribute_native_not_dup_err (validate : String → Except String Unit)
    (funds : List Coin) (denom : String) (rs : List Recipient) (amount : Nat)
    (hscan : scanFunds denom funds 0 = some amount)
    (hsum : sumAmounts rs = some amount)
    (hdup : hasDuplicate rs = false) :
    try_distribute_native validate funds denom rs ≠
      DistResult.err ContractError.duplicateRecipient := by
  rw [try_distribute_native_build validate funds denom rs amount hscan hsum hdup]
  rcases hb : buildMsgs validate
      (fun r => SubMsg.bankSend r.recipient r.amount denom) rs with e | msgs
  all_goals simp

theorem try_distribute_native_not_amount_err
    (validate : String → Except String Unit)
    (funds : List Coin) (denom : String) (rs : List Recipient) (amount : Nat)
    (hscan : scanFunds denom funds 0 = some amount)
    (hsum : sumAmounts rs = some amount) :
    try_distribute_native validate funds denom rs ≠
      DistResult.err ContractError.mismatchedAssetAmount := by
  by_cases hdup : hasDuplicate rs = true
  · rw [try_distribute_native_dup validate funds denom rs amount hscan hsum hdup]
    simp
  · rw [try_distribute_native_build validate funds denom rs amount hscan hsum
      (Bool.not_eq_true _ ▸ hdup)]
    rcases hb : buildMsgs validate
        (fun r => SubMsg.bankSend r.recipient r.amount denom) rs with e | msgs
    all_goals simp

/-- Claim C1: for every request (native or cw20) that passes all validation,
the result is exactly one transfer instruction per recipient, in recipient
order, carrying the recipient's address, the recipient's amount, and the
declared denom (native) or the declared asset token as target contract
(cw20), and the instruction amounts sum to the deposited amount. -/
theorem claim1_valid_request_instructions
    (validate : String → Except String Unit) (funds : List Coin)
    (denom tok : String) (rs : List Recipient) (amount : Nat)
    (hsum : sumAmounts rs = some amount)
    (hdup : hasDuplicate rs = false)
    (hval : ∀ r ∈ rs, validate r.recipient = Except.ok ()) :
    (scanFunds denom funds 0 = some amount →
      try_distribute_native validate funds denom rs =
        DistResult.ok
          (rs.map fun r => SubMsg.bankSend r.recipient r.amount denom))
    ∧ try_distribute_cw20 validate amount tok rs =
        DistResult.ok
          (rs.map fun r => SubMsg.cw20Transfer tok r.recipient r.amount)
    ∧ (rs.map fun r => SubMsg.bankSend r.recipient r.amount denom).length
        = rs.length
    ∧ (rs.map fun r => SubMsg.cw20Transfer tok r.recipient r.amount).length
        = rs.length
    ∧ ((rs.map fun r => SubMsg.bankSend r.recipient r.amount denom).map
        subMsgAmount).sum = amount
    ∧ ((rs.map fun r => SubMsg.cw20Transfer tok r.recipient r.amount).map
        subMsgAmount).sum = amount := by
  obtain ⟨hsum', _⟩ := sumAmounts_some rs amount hsum
  refine ⟨fun hscan =>
      try_distribute_native_ok validate funds denom rs amount hscan hsum
        hdup hval,
    try_distribute_cw20_ok validate amount tok rs hsum hdup hval,
    by simp, by simp, ?_, ?_⟩
  · rw [List.map_map]
    have hc : (subMsgAmount ∘ fun r : Recipient =>
        SubMsg.bankSend r.recipient r.amount denom) = Recipient.amount := by
      funext r
      rfl
    rw [hc, hsum']
  · rw [List.map_map]
    have hc : (subMsgAmount ∘ fun r : Recipient =>
        SubMsg.cw20Transfer tok r.recipient r.amount) = Recipient.amount := by
      funext r
      rfl
    rw [hc, hsum']

theorem claim1_witness :
    try_distribute_native okValidator [⟨"uusd", 300⟩] "uusd"
        [⟨"A", 100⟩, ⟨"B", 200⟩] =
      DistResult.ok
        [SubMsg.bankSend "A" 100 "uusd", SubMsg.bankSend "B" 200 "uusd"]
    ∧ try_distribute_cw20 okValidator 300 "tokenY" [⟨"A", 100⟩, ⟨"B", 200⟩] =
      DistResult.ok
        [SubMsg.cw20Transfer "tokenY" "A" 100,
          SubMsg.cw20Transfer "tokenY" "B" 200] := by
  have h := claim1_valid_request_instructions okValidator [⟨"uusd", 300⟩]
    "uusd" "tokenY" [⟨"A", 100⟩, ⟨"B", 200⟩] 300 (by decide) (by decide)
    (fun r _ => rfl)
  exact ⟨h.1 (by decide), h.2.1⟩

/-- Claim C2: for every request (native or cw20) where the sum of recipient
amounts differs from the deposited amount, the call fails with
MismatchedAssetAmount and emits no instructions. -/
theorem claim2_mismatched_amount_fails
    (validate : String → Except String Unit) (funds : List Coin)
    (denom tok : String) (rs : List Recipient) (amount s : Nat)
    (hsum : sumAmounts rs = some s) (hne : amount ≠ s) :
    (scanFunds denom funds 0 = some amount →
      try_distribute_native validate funds denom rs =
        DistResult.err ContractError.mismatchedAssetAmount)
    ∧ try_distribute_cw20 validate amount tok rs =
        DistResult.err ContractError.mismatchedAssetAmount
    ∧ instructionsOf (DistResult.err ContractError.mismatchedAssetAmount)
        = [] := by
  exact ⟨fun hscan =>
      try_distribute_native_mismatch validate funds denom rs amount s hscan
        hsum hne,
    try_distribute_cw20_mismatch validate amount tok rs s hsum hne, rfl⟩

theorem claim2_witness :
    try_distribute_native okValidator [⟨"uusd", 250⟩] "uusd"
        [⟨"A", 100⟩, ⟨"B", 200⟩] =
      DistResult.err ContractError.mismatchedAssetAmount
    ∧ try_distribute_cw20 okValidator 250 "tokenY" [⟨"A", 100⟩, ⟨"B", 200⟩] =
      DistResult.err ContractError.mismatchedAssetAmount := by
  have h := claim2_mismatched_amount_fails okValidator [⟨"uusd", 250⟩]
    "uusd" "tokenY" [⟨"A", 100⟩, ⟨"B", 200⟩] 250 300 (by decide) (by decide)
  exact ⟨h.1 (by decide), h.2.1⟩

/-- Claim C3: whenever the recipient amounts sum to at least 2^128, the
accumulating fold fails (the `Uint128` addition aborts the call) in either
path: the call yields no wrapped-around sum and no instructions. -/
theorem claim3_overflow_aborts
    (validate : String → Except String Unit) (funds : List Coin)
    (denom tok : String) (rs : List Recipient) (amount : Nat)
    (hover : uint128Bound ≤ (rs.map Recipient.amount).sum) :
    sumAmounts rs = none
    ∧ try_distribute_cw20 validate amount tok rs = DistResult.panicked
    ∧ (∀ a, scanFunds denom funds 0 = some a →
        try_distribute_native validate funds denom rs = DistResult.panicked)
    ∧ instructionsOf DistResult.panicked = [] := by
  have hnone : sumAmounts rs = none := by
    rw [sumAmounts_eq, if_neg (Nat.not_lt.mpr hover)]
  exact ⟨hnone, try_distribute_cw20_panic validate amount tok rs hnone,
    fun a ha => try_distribute_native_panic validate funds denom rs a ha hnone,
    rfl⟩

theorem claim3_witness :
    try_distribute_cw20 okValidator 0 "tokenY"
        [⟨"A", 2 ^ 127⟩, ⟨"B", 2 ^ 127⟩] = DistResult.panicked
    ∧ try_distribute_native okValidator [] "uusd"
        [⟨"A", 2 ^ 127⟩, ⟨"B", 2 ^ 127⟩] = DistResult.panicked := by
  have h := claim3_overflow_aborts okValidator [] "uusd" "tokenY"
    [⟨"A", 2 ^ 127⟩, ⟨"B", 2 ^ 127⟩] 0 (by decide)
  exact ⟨h.2.1, h.2.2.1 0 (by decide)⟩

/-- Claim C4: when the amount check passes, either path fails with
DuplicateRecipient exactly when there are positions `i < j` holding
structurally equal entries (address and amount both equal); entries sharing
an address but differing in amount do not trigger this error. -/
theorem claim4_duplicate_iff
    (validate : String → Except String Unit) (funds : List Coin)
    (denom tok : String) (rs : List Recipient) (amount : Nat)
    (hsum : sumAmounts rs = some amount) :
    (try_distribute_cw20 validate amount tok rs =
        DistResult.err ContractError.duplicateRecipient ↔ HasDupPair rs)
    ∧ (scanFunds denom funds 0 = some amount →
        (try_distribute_native validate funds denom rs =
          DistResult.err ContractError.duplicateRecipient ↔ HasDupPair rs)) := by
  constructor
  · constructor
    · intro h
      by_cases hdup : hasDuplicate rs = true
      · exact (hasDuplicate_iff rs).mp hdup
      · exact absurd h
          (try_distribute_cw20_not_dup_err validate amount tok rs hsum
            (Bool.not_eq_true _ ▸ hdup))
    · intro h
      exact try_distribute_cw20_dup validate amount tok rs hsum
        ((hasDuplicate_iff rs).mpr h)
  · intro hscan
    constructor
    · intro h
      by_cases hdup : hasDuplicate rs = true
      · exact (hasDuplicate_iff rs).mp hdup
      · exact absurd h
          (try_distribute_native_not_dup_err validate funds denom rs amount
            hscan hsum (Bool.not_eq_true _ ▸ hdup))
    · intro h
      exact try_distribute_native_dup validate funds denom rs amount hscan
        hsum ((hasDuplicate_iff rs).mpr h)

theorem claim4_witness :
    try_distribute_cw20 okValidator 200 "tokenY" [⟨"A", 100⟩, ⟨"A", 100⟩] =
      DistResult.err ContractError.duplicateRecipient
    ∧ try_distribute_cw20 okValidator 300 "tokenY" [⟨"A", 100⟩, ⟨"A", 200⟩] ≠
      DistResult.err ContractError.duplicateRecipient := by
  constructor
  · exact (claim4_duplicate_iff okValidator [] "uusd" "tokenY"
        [⟨"A", 100⟩, ⟨"A", 100⟩] 200 (by decide)).1.mpr
      ⟨0, 1, by decide, by decide, by decide, rfl⟩
  · intro h
    have hnd : ¬ HasDupPair [⟨"A", 100⟩, ⟨"A", 200⟩] := by
      rintro ⟨i, j, hi, hj, hij, heq⟩
      simp only [List.length_cons, List.length_nil] at hi hj
      have hij' : i = 0 ∧ j = 1 := by omega
      obtain ⟨rfl, rfl⟩ := hij'
      simp [List.get] at heq
    exact hnd ((claim4_duplicate_iff okValidator [] "uusd" "tokenY"
        [⟨"A", 100⟩, ⟨"A", 200⟩] 300 (by decide)).1.mp h)

/-- Claim C5: the native funds scan fails with MismatchedAssetType whenever
some attached coin has a denom other than the declared one; when every
attached coin matches, the last coin's amount becomes the deposited amount
(zero when no coin is attached), and the call then fails the amount check
exactly when that amount differs from the recipient sum. -/
theorem claim5_native_funds_scan
    (validate : String → Except String Unit) (funds : List Coin)
    (denom : String) (rs : List Recipient) (s : Nat)
    (hsum : sumAmounts rs = some s) :
    ((∃ c ∈ funds, c.denom ≠ denom) →
      try_distribute_native validate funds denom rs =
        DistResult.err ContractError.mismatchedAssetType)
    ∧ ((∀ c ∈ funds, c.denom = denom) →
        scanFunds denom funds 0 = some ((funds.map Coin.amount).getLastD 0)
        ∧ (try_distribute_native validate funds denom rs =
              DistResult.err ContractError.mismatchedAssetAmount
            ↔ (funds.map Coin.amount).getLastD 0 ≠ s)) := by
  constructor
  · intro hex
    exact try_distribute_native_badfunds validate funds denom rs
      ((scanFunds_eq_none_iff denom funds 0).mpr hex)
  · intro hall
    have hscan := scanFunds_all_match denom funds 0 hall
    refine ⟨hscan, ?_, ?_⟩
    · intro h hlast
      rw [hlast] at hscan
      exact absurd h
        (try_distribute_native_not_amount_err validate funds denom rs s
          hscan hsum)
    · intro hlast
      exact try_distribute_native_mismatch validate funds denom rs
        ((funds.map Coin.amount).getLastD 0) s hscan hsum hlast

theorem claim5_witness :
    try_distribute_native okValidator [⟨"uusd", 100⟩, ⟨"ukrw", 5⟩] "uusd"
        [⟨"A", 100⟩] = DistResult.err ContractError.mismatchedAssetType
    ∧ scanFunds "uusd" [⟨"uusd", 7⟩, ⟨"uusd", 100⟩] 0 = some 100
    ∧ try_distribute_native okValidator [] "uusd" [⟨"A", 100⟩] =
        DistResult.err ContractError.mismatchedAssetAmount := by
  have h1 := claim5_native_funds_scan okValidator
    [⟨"uusd", 100⟩, ⟨"ukrw", 5⟩] "uusd" [⟨"A", 100⟩] 100 (by decide)
  have h2 := claim5_native_funds_scan okValidator
    [⟨"uusd", 7⟩, ⟨"uusd", 100⟩] "uusd" [⟨"A", 100⟩] 100 (by decide)
  have h3 := claim5_native_funds_scan okValidator [] "uusd"
    [⟨"A", 100⟩] 100 (by decide)
  refine ⟨h1.1 ⟨⟨"ukrw", 5⟩, by decide, by decide⟩, ?_, ?_⟩
  · have := (h2.2 (by decide)).1
    simpa using this
  · exact (h3.2 (by decide)).2.mpr (by decide)

/-- Claim C6: for every decoded DistributeCw20 hook whose message sender
differs from the declared asset token, the call fails with
MismatchedAssetType regardless of the deposited amount, the recipients, or
the validator, and no other validation runs. -/
theorem claim6_sender_mismatch
    (validate : String → Except String Unit) (info_sender msg_sender : String)
    (amount : Nat) (tok : String) (rs : List Recipient)
    (hne : info_sender ≠ tok) :
    receive_cw20 validate info_sender
        ⟨msg_sender, amount, Cw20HookPayload.distributeCw20 tok rs⟩ =
      DistResult.err ContractError.mismatchedAssetType := by
  simp [receive_cw20, hne]

theorem claim6_witness :
    receive_cw20 okValidator "tokenX"
        ⟨"user", 100, Cw20HookPayload.distributeCw20 "tokenY" [⟨"A", 100⟩]⟩ =
      DistResult.err ContractError.mismatchedAssetType :=
  claim6_sender_mismatch okValidator "tokenX" "user" 100 "tokenY"
    [⟨"A", 100⟩] (by decide)

/-- Claim C7: the build loop hands each recipient's address to the external
validator once, in list order; if the validator rejects the first recipient
not preceded by rejected ones, either path fails with that validator error
wrapped as the propagated standard error, and no instructions are
emitted. -/
theorem claim7_validator_collaboration
    (validate : String → Except String Unit) (funds : List Coin)
    (denom tok : String) (rs : List Recipient) (amount k : Nat) (e : String)
    (hsum : sumAmounts rs = some amount)
    (hdup : hasDuplicate rs = false) :
    ((∀ r ∈ rs, validate r.recipient = Except.ok ()) →
      validationCalls validate rs = rs.map Recipient.recipient)
    ∧ ∀ (hk : k < rs.length),
        (∀ i (hi : i < k),
          validate (rs.get ⟨i, hi.trans hk⟩).recipient = Except.ok ()) →
        validate (rs.get ⟨k, hk⟩).recipient = Except.error e →
        try_distribute_cw20 validate amount tok rs =
            DistResult.err (ContractError.std e)
        ∧ (scanFunds denom funds 0 = some amount →
            try_distribute_native validate funds denom rs =
              DistResult.err (ContractError.std e))
        ∧ instructionsOf (DistResult.err (ContractError.std e)) = [] := by
  refine ⟨validationCalls_all_ok validate rs, ?_⟩
  intro hk hbefore hfail
  refine ⟨?_, ?_, rfl⟩
  · rw [try_distribute_cw20_build validate amount tok rs hsum hdup,
      buildMsgs_first_error validate _ rs k e hk hbefore hfail]
  · intro hscan
    rw [try_distribute_native_build validate funds denom rs amount hscan
        hsum hdup,
      buildMsgs_first_error validate _ rs k e hk hbefore hfail]

theorem claim7_witness :
    validationCalls okValidator [⟨"A", 100⟩, ⟨"B", 200⟩] = ["A", "B"]
    ∧ try_distribute_cw20 rejectB 300 "tokenY" [⟨"A", 100⟩, ⟨"B", 200⟩] =
        DistResult.err (ContractError.std "invalid address")
    ∧ try_distribute_native rejectB [⟨"uusd", 300⟩] "uusd"
        [⟨"A", 100⟩, ⟨"B", 200⟩] =
        DistResult.err (ContractError.std "invalid address") := by
  have hok := (claim7_validator_collaboration okValidator [] "uusd" "tokenY"
    [⟨"A", 100⟩, ⟨"B", 200⟩] 300 0 "" (by decide) (by decide)).1
    (fun r _ => rfl)
  have h := claim7_validator_collaboration rejectB [⟨"uusd", 300⟩] "uusd"
    "tokenY" [⟨"A", 100⟩, ⟨"B", 200⟩] 300 1 "invalid address" (by decide)
    (by decide)
  have hfail := h.2 (by decide)
    (fun i hi => by
      have h0 : i = 0 := by omega
      subst h0
      rfl)
    rfl
  exact ⟨by simpa using hok, hfail.1, hfail.2.1 (by decide)⟩

/-- Claim C8: `execute` is pure with respect to contract storage: the store
is returned exactly as received on every path, and a failing call returns
an error carrying no instructions. -/
theorem claim8_execute_pure (validate : String → Except String Unit)
    (store : Store) (info : MessageInfo) (msg : ExecuteMsg) :
    (execute validate store info msg).2 = store
    ∧ ∀ e, (execute validate store info msg).1 = DistResult.err e →
        instructionsOf (execute validate store info msg).1 = [] := by
  refine ⟨?_, fun e he => ?_⟩
  · cases msg with
    | receive m => rfl
    | distributeNative denom recipients => rfl
  · rw [he]
    rfl

theorem claim8_witness :
    (execute okValidator [("k", "v")] ⟨"user", []⟩
        (ExecuteMsg.receive ⟨"user", 5, Cw20HookPayload.malformed⟩)).2 =
      [("k", "v")]
    ∧ instructionsOf
        (execute okValidator [("k", "v")] ⟨"user", []⟩
          (ExecuteMsg.receive ⟨"user", 5, Cw20HookPayload.malformed⟩)).1 =
      [] := by
  have h := claim8_execute_pure okValidator [("k", "v")] ⟨"user", []⟩
    (ExecuteMsg.receive ⟨"user", 5, Cw20HookPayload.malformed⟩)
  exact ⟨h.1, h.2 (ContractError.generic "invalid cw20 hook message") rfl⟩

/-- Claim C9: an empty recipients list with a zero deposit (no attached
funds, or one attached coin of the declared denom with amount zero, or a
cw20 deposit of zero) is not an error: the call succeeds with an empty
instruction sequence. -/
theorem claim9_empty_distribution (validate : String → Except String Unit)
    (denom tok : String) :
    try_distribute_native validate [] denom [] = DistResult.ok []
    ∧ try_distribute_native validate [⟨denom, 0⟩] denom [] = DistResult.ok []
    ∧ try_distribute_cw20 validate 0 tok [] = DistResult.ok [] := by
  refine ⟨rfl, ?_, rfl⟩
  simp [try_distribute_native, scanFunds, sumAmounts, hasDuplicate, buildMsgs]

/-- Claim C10: a recipient entry with amount zero is not rejected by either
path: it contributes nothing to the sum check, and with a valid
non-duplicated address the call still emits one instruction for it carrying
amount zero (one instruction per recipient overall). -/
theorem claim10_zero_amount_recipient
    (validate : String → Except String Unit) (funds : List Coin)
    (denom tok : String) (rs : List Recipient) (amount : Nat) (r : Recipient)
    (hmem : r ∈ rs) (hzero : r.amount = 0)
    (hsum : sumAmounts rs = some amount)
    (hdup : hasDuplicate rs = false)
    (hval : ∀ x ∈ rs, validate x.recipient = Except.ok ()) :
    (try_distribute_cw20 validate amount tok rs =
        DistResult.ok
          (rs.map fun x => SubMsg.cw20Transfer tok x.recipient x.amount)
      ∧ SubMsg.cw20Transfer tok r.recipient 0 ∈
          rs.map (fun x => SubMsg.cw20Transfer tok x.recipient x.amount)
      ∧ (rs.map fun x => SubMsg.cw20Transfer tok x.recipient x.amount).length
          = rs.length)
    ∧ (scanFunds denom funds 0 = some amount →
        try_distribute_native validate funds denom rs =
          DistResult.ok
            (rs.map fun x => SubMsg.bankSend x.recipient x.amount denom)
        ∧ SubMsg.bankSend r.recipient 0 denom ∈
            rs.map (fun x => SubMsg.bankSend x.recipient x.amount denom)
        ∧ (rs.map fun x => SubMsg.bankSend x.recipient x.amount denom).length
            = rs.length) := by
  refine ⟨⟨try_distribute_cw20_ok validate amount tok rs hsum hdup hval,
      ?_, by simp⟩,
    fun hscan =>
      ⟨try_distribute_native_ok validate funds denom rs amount hscan hsum
        hdup hval, ?_, by simp⟩⟩
  · rw [← hzero]
    exact List.mem_map_of_mem _ hmem
  · rw [← hzero]
    exact List.mem_map_of_mem _ hmem

theorem claim10_witness :
    try_distribute_cw20 okValidator 5 "tokenY" [⟨"A", 0⟩, ⟨"B", 5⟩] =
      DistResult.ok
        [SubMsg.cw20Transfer "tokenY" "A" 0, SubMsg.cw20Transfer "tokenY" "B" 5]
    ∧ try_distribute_native okValidator [⟨"uusd", 5⟩] "uusd"
        [⟨"A", 0⟩, ⟨"B", 5⟩] =
      DistResult.ok
        [SubMsg.bankSend "A" 0 "uusd", SubMsg.bankSend "B" 5 "uusd"] := by
  have h := claim10_zero_amount_recipient okValidator [⟨"uusd", 5⟩] "uusd"
    "tokenY" [⟨"A", 0⟩, ⟨"B", 5⟩] 5 ⟨"A", 0⟩ (by decide) rfl (by decide)
    (by decide) (fun x _ => rfl)
  exact ⟨h.1.1, (h.2 (by decide)).1⟩

end Distribute
